import Mathlib

/-!
Shallow embedding of the `ironfish-frost` signing-commitment and DKG round3
code (`src/signing_commitment.rs`, `src/dkg/round3.rs`), together with models
of the collaborator modules that the repository delegates to (checksum hasher,
participant identities and signatures, nonce derivation, and the threshold
primitive).  All definitions are executable; theorems about the claims of the
specification follow the definitions.
-/

namespace IronfishFrost

/-! ## Bytes and the checksum hasher

The checksum module (`crate::checksum`) is not part of the provided sources.
Modelled from the spec: a `Checksum` is a 64-bit digest, produced by a
deterministic hasher that consumes a byte stream; only determinism and
dependence on exactly the written byte stream matter to the claims.
-/

/-- Bytes are modelled as natural numbers; serialized data produced by the
code always stays below 256 except where a field is the model's abstract
handle itself. -/
abbrev Byte := Nat

/-- 2^64, the modulus of the 64-bit checksum digest. -/
def CHECKSUM_MOD : Nat := 18446744073709551616

/-- Modelled from the spec: one step of the deterministic checksum hasher. -/
def hashStep (a b : Nat) : Nat := (a * 131 + b + 1) % CHECKSUM_MOD

/-- Modelled from the spec: the deterministic 64-bit digest of a byte stream
(`ChecksumHasher::write` over the whole stream followed by `finish`). -/
def hashBytes (l : List Byte) : Nat := l.foldl hashStep 0

/-- A checksum is a 64-bit digest, equality-comparable only. -/
abbrev Checksum := Nat

/-- `CHECKSUM_LEN` from `crate::checksum`: a checksum serializes to 8 bytes. -/
def CHECKSUM_LEN : Nat := 8

/-- `Checksum::to_le_bytes`: the 8 little-endian bytes of a 64-bit value. -/
def Checksum.to_le_bytes (n : Nat) : List Nat :=
  [n % 256, n / 256 % 256, n / 65536 % 256, n / 16777216 % 256,
   n / 4294967296 % 256, n / 1099511627776 % 256, n / 281474976710656 % 256,
   n / 72057594037927936 % 256]

/-- `Checksum::from_le_bytes`: reassemble a 64-bit value from 8 bytes. -/
def Checksum.from_le_bytes (l : List Nat) : Nat :=
  l.getD 0 0 + 256 * l.getD 1 0 + 65536 * l.getD 2 0 + 16777216 * l.getD 3 0 +
    4294967296 * l.getD 4 0 + 1099511627776 * l.getD 5 0 +
    281474976710656 * l.getD 6 0 + 72057594037927936 * l.getD 7 0

/-! ## Identity and Secret

The participant module (`crate::participant`) is not part of the provided
sources.  Modelled from the spec: an `Identity` is the public, totally
ordered, fixed-width-serializable handle derived from a `Secret`; a `Secret`
signs byte strings.  `IDENTITY_LEN` is the fixed serialization width. -/

/-- A participant identity, modelled as its abstract public handle. -/
abbrev Identity := Nat

/-- A participant secret; `Secret::to_identity` is injective, so the model
identifies a secret with the handle of the identity it derives. -/
abbrev Secret := Nat

/-- The fixed width of a serialized `Identity`. -/
def IDENTITY_LEN : Nat := 129

/-- Modelled from the spec: fixed-width (129-byte) serialization of an
identity — the handle followed by padding that a valid encoding keeps at
zero. -/
def Identity.serialize (i : Identity) : List Byte :=
  i :: List.replicate 128 0

/-- Modelled from the spec: parse one 129-byte chunk as an `Identity`;
encodings whose padding bytes are not all zero are invalid and rejected,
mirroring that not every byte string is a valid identity encoding. -/
def Identity.deserializeChunk (b : List Byte) : Option Identity :=
  if b.length = 129 ∧ b.tail = List.replicate 128 0 then some (b.headD 0)
  else none

/-- `Secret::to_identity`. -/
def Secret.to_identity (s : Secret) : Identity := s

/-! ## Signatures

The signature scheme is an excluded collaborator.  Modelled from the spec
as an ideal deterministic scheme: signing is a function of the signer and
the signed data, verification accepts exactly the signature that the owner
of the identity would produce over exactly that data. -/

/-- `Signature::BYTE_SIZE`: the fixed width of a serialized signature. -/
def SIGNATURE_BYTE_SIZE : Nat := 64

/-- A signature value: a byte string of the fixed signature width. -/
def Signature := { l : List Byte // l.length = SIGNATURE_BYTE_SIZE }

instance : DecidableEq Signature := fun a b =>
  decidable_of_iff (a.val = b.val) Subtype.ext_iff.symm

/-- `Signature::to_bytes`. -/
def Signature.to_bytes (s : Signature) : List Byte := s.val

/-- Pad or truncate a byte string to the fixed signature width. -/
def padToSig (l : List Byte) : List Byte :=
  (l ++ List.replicate SIGNATURE_BYTE_SIZE 0).take SIGNATURE_BYTE_SIZE

theorem length_padToSig (l : List Byte) : (padToSig l).length = SIGNATURE_BYTE_SIZE := by
  simp [padToSig, List.length_take, List.length_append]

/-- Modelled from the spec: the byte content of the ideal signature of
`data` by the secret behind `signer`.  The sampled positions cover every
field of the authenticated payload produced by `authenticated_data`
(identity at 0, hiding commitment at 129, binding commitment at 161,
checksum bytes at 193..200), so on such payloads the signature determines
the signer and the payload. -/
def signatureCore (signer : Identity) (data : List Byte) : List Byte :=
  signer :: data.headD 0 :: (data.drop 129).headD 0 :: (data.drop 161).headD 0 ::
    (data.drop 193).take 8

/-- Modelled from the spec: the ideal signature of `data` by the secret
behind `signer`. -/
def mkSignature (signer : Identity) (data : List Byte) : Signature :=
  ⟨padToSig (signatureCore signer data), length_padToSig _⟩

/-- `Secret::sign`. -/
def Secret.sign (s : Secret) (data : List Byte) : Signature :=
  mkSignature (Secret.to_identity s) data

/-- `Signature::from_bytes` (total on full-width byte strings). -/
def Signature.from_bytes (l : List Byte) (h : l.length = SIGNATURE_BYTE_SIZE) : Signature :=
  ⟨l, h⟩

/-- The error returned when a signature fails to verify. -/
inductive SignatureError
  | invalidSignature
deriving DecidableEq

/-- Modelled from the spec: `Identity::verify_data` accepts exactly the
signature that the owner of the identity produces over the data. -/
def Identity.verify_data (i : Identity) (data : List Byte) (sig : Signature) :
    Except SignatureError Unit :=
  if sig = mkSignature i data then Except.ok () else Except.error SignatureError.invalidSignature

/-! ## Nonce commitments and deterministic nonces -/

/-- The width of a serialized nonce commitment (`NONCE_COMMITMENT_LEN`). -/
def NONCE_COMMITMENT_LEN : Nat := 32

/-- A nonce commitment, modelled as its abstract handle. -/
abbrev NonceCommitment := Nat

/-- Modelled from the spec: fixed-width (32-byte) serialization of a nonce
commitment. -/
def NonceCommitment.serialize (n : NonceCommitment) : List Byte :=
  n :: List.replicate 31 0

/-- Modelled from the spec: parse one 32-byte chunk as a nonce commitment;
encodings with nonzero padding are invalid, mirroring that not every byte
string decodes to a group element. -/
def NonceCommitment.deserializeChunk (b : List Byte) : Option NonceCommitment :=
  if b.length = 32 ∧ b.tail = List.replicate 31 0 then some (b.headD 0)
  else none

/-- `frost::round1::SigningCommitments`: the pair of nonce commitments. -/
structure SigningCommitments where
  hidingCm : NonceCommitment
  bindingCm : NonceCommitment
deriving DecidableEq

/-- A FROST signing share, opaque to this layer. -/
abbrev SigningShare := Nat

/-- The pair of secret nonces behind a signing commitment. -/
structure SigningNonces where
  hidingN : Nat
  bindingN : Nat
deriving DecidableEq

/-- `SigningNonces::commitments`: the commitments to the two nonces. -/
def SigningNonces.commitments (n : SigningNonces) : SigningCommitments :=
  ⟨n.hidingN, n.bindingN⟩

/-! ## Canonicalization and the signing-commitment input checksum -/

/-- Remove consecutive duplicates, as `Vec::dedup` does. -/
def dedupConsec : List Identity → List Identity
  | [] => []
  | [a] => [a]
  | a :: b :: rest =>
    if a = b then dedupConsec (b :: rest) else a :: dedupConsec (b :: rest)

/-- Sort ascending and remove duplicates: the canonical form of a
participant list used by `input_checksum` (`sort_unstable` then `dedup`). -/
def canonicalParticipants (ps : List Identity) : List Identity :=
  dedupConsec (List.insertionSort (· ≤ ·) ps)

/-- `input_checksum` from `src/signing_commitment.rs`: hash the transaction
hash followed by the serializations of the sorted, deduplicated signing
participants. -/
def input_checksum (transaction_hash : List Byte) (signing_participants : List Identity) :
    Checksum :=
  hashBytes (transaction_hash ++
    (canonicalParticipants signing_participants).foldr (fun i acc => Identity.serialize i ++ acc) [])

/-- Modelled from the spec: `deterministic_signing_nonces` derives the two
session nonces deterministically from the signing share, the transaction
hash and the canonicalized signer set; no randomness is consumed. -/
def deterministic_signing_nonces (secret_share : SigningShare) (transaction_hash : List Byte)
    (signing_participants : List Identity) : SigningNonces :=
  ⟨hashBytes (0 :: secret_share :: transaction_hash ++ canonicalParticipants signing_participants),
   hashBytes (1 :: secret_share :: transaction_hash ++ canonicalParticipants signing_participants)⟩

/-! ## SigningCommitment -/

/-- `AUTHENTICATED_DATA_LEN` from `src/signing_commitment.rs`. -/
def AUTHENTICATED_DATA_LEN : Nat := IDENTITY_LEN + NONCE_COMMITMENT_LEN * 2 + CHECKSUM_LEN

/-- `SIGNING_COMMITMENT_LEN` from `src/signing_commitment.rs`. -/
def SIGNING_COMMITMENT_LEN : Nat := AUTHENTICATED_DATA_LEN + SIGNATURE_BYTE_SIZE

/-- `authenticated_data` from `src/signing_commitment.rs`: identity bytes,
hiding-commitment bytes, binding-commitment bytes, checksum bytes, in that
fixed order. -/
def authenticated_data (identity : Identity) (raw_commitments : SigningCommitments)
    (checksum : Checksum) : List Byte :=
  Identity.serialize identity ++
    NonceCommitment.serialize raw_commitments.hidingCm ++
    NonceCommitment.serialize raw_commitments.bindingCm ++
    Checksum.to_le_bytes checksum

/-- `SigningCommitment` from `src/signing_commitment.rs`. -/
structure SigningCommitment where
  identity : Identity
  raw_commitments : SigningCommitments
  checksum : Checksum
  signature : Signature
deriving DecidableEq

namespace SigningCommitment

/-- `SigningCommitment::verify_authenticity`. -/
def verify_authenticity (c : SigningCommitment) : Except SignatureError Unit :=
  Identity.verify_data c.identity
    (authenticated_data c.identity c.raw_commitments c.checksum) c.signature

/-- `SigningCommitment::from_raw_parts`: build the value, then verify its
authenticity; only an authentic value is returned. -/
def from_raw_parts (identity : Identity) (raw_commitments : SigningCommitments)
    (checksum : Checksum) (signature : Signature) :
    Except SignatureError SigningCommitment :=
  match (SigningCommitment.mk identity raw_commitments checksum signature).verify_authenticity with
  | Except.ok _ => Except.ok (SigningCommitment.mk identity raw_commitments checksum signature)
  | Except.error e => Except.error e

/-- `SigningCommitment::from_secrets`. -/
def from_secrets (participant_secret : Secret) (secret_share : SigningShare)
    (transaction_hash : List Byte) (signing_participants : List Identity) :
    SigningCommitment :=
  let identity := Secret.to_identity participant_secret
  let nonces := deterministic_signing_nonces secret_share transaction_hash signing_participants
  let raw_commitments := nonces.commitments
  let checksum := input_checksum transaction_hash signing_participants
  let data := authenticated_data identity raw_commitments checksum
  let signature := Secret.sign participant_secret data
  ⟨identity, raw_commitments, checksum, signature⟩

/-- The error returned by `SigningCommitment::verify_checksum`. -/
inductive ChecksumMismatch
  | signingCommitmentError
deriving DecidableEq

/-- `SigningCommitment::verify_checksum`. -/
def verify_checksum (c : SigningCommitment) (transaction_hash : List Byte)
    (signing_participants : List Identity) : Except ChecksumMismatch Unit :=
  if c.checksum = input_checksum transaction_hash signing_participants then Except.ok ()
  else Except.error ChecksumMismatch.signingCommitmentError

/-- `SigningCommitment::serialize`: signature, identity, hiding commitment,
binding commitment, checksum, in that fixed order. -/
def serialize (c : SigningCommitment) : List Byte :=
  Signature.to_bytes c.signature ++
    Identity.serialize c.identity ++
    NonceCommitment.serialize c.raw_commitments.hidingCm ++
    NonceCommitment.serialize c.raw_commitments.bindingCm ++
    Checksum.to_le_bytes c.checksum

/-- The error classes of `SigningCommitment::deserialize_from`: a short
read, an invalid field encoding, or a failed authenticity check (the last
two both surface as `io::Error::other` in the source). -/
inductive DeserializeError
  | ioError
  | invalidEncoding
  | signatureError
deriving DecidableEq

/-- Wrap a byte string read from the wire as a `Signature` value; on the
full-width chunks that `rawParse` reads this is the identity on the bytes. -/
def bytesToSignature (l : List Byte) : Signature :=
  ⟨padToSig l, length_padToSig l⟩

/-- The structural phase of `deserialize_from`: read the five fixed-width
fields in order and validate the identity and nonce-commitment encodings. -/
def rawParse (bytes : List Byte) :
    Except DeserializeError (Signature × Identity × SigningCommitments × Checksum) :=
  if SIGNING_COMMITMENT_LEN ≤ bytes.length then
    match Identity.deserializeChunk ((bytes.drop 64).take 129) with
    | none => Except.error DeserializeError.invalidEncoding
    | some identity =>
      match NonceCommitment.deserializeChunk ((bytes.drop 193).take 32) with
      | none => Except.error DeserializeError.invalidEncoding
      | some hcm =>
        match NonceCommitment.deserializeChunk ((bytes.drop 225).take 32) with
        | none => Except.error DeserializeError.invalidEncoding
        | some bcm =>
          Except.ok (bytesToSignature (bytes.take 64), identity, ⟨hcm, bcm⟩,
            Checksum.from_le_bytes ((bytes.drop 257).take 8))
  else Except.error DeserializeError.ioError

/-- `SigningCommitment::deserialize_from`: parse the five fields, then run
`from_raw_parts`, which re-runs the authenticity verification. -/
def deserialize_from (bytes : List Byte) : Except DeserializeError SigningCommitment :=
  match rawParse bytes with
  | Except.error e => Except.error e
  | Except.ok parts =>
    match from_raw_parts parts.2.1 parts.2.2.1 parts.2.2.2 parts.1 with
    | Except.ok c => Except.ok c
    | Except.error _ => Except.error DeserializeError.signatureError

end SigningCommitment

/-! ## DKG round 3 (`src/dkg/round3.rs`)

The supporting modules (`dkg::round1`, `dkg::round2`, `dkg::utils`,
`dkg::error`, `dkg::group_key`) are not part of the provided sources and are
modelled from the spec; `round3` itself is translated from the source. -/

/-- A FROST identifier.  Modelled from the spec: `to_frost_identifier` is a
stable injective map from identities, taken as the identity map here. -/
abbrev Identifier := Nat

/-- `Identity::to_frost_identifier`. -/
def Identity.to_frost_identifier (i : Identity) : Identifier := i

/-- The checksum error variants of `crate::checksum::ChecksumError` used by
the DKG rounds. -/
inductive ChecksumError
  | dkgPublicPackageError
deriving DecidableEq

/-- The reasons `round3` reports `InvalidInput`; the source carries
human-readable strings, abstracted here into their distinct cases. -/
inductive InvalidKind
  | wrongPackageCount
  | wrongRecipient
  | duplicateSender
deriving DecidableEq

/-- `dkg::error::Error`.  Modelled from the spec: the error taxonomy of the
DKG rounds (`ChecksumError`, `InvalidInput`, `FrostError`). -/
inductive Error
  | checksumError : ChecksumError → Error
  | invalidInput : InvalidKind → Error
  | frostError : Nat → Error
deriving DecidableEq

/-- The sites at which `round3` aborts instead of returning an error: the
two `expect` calls and the `assert_eq` of the source. -/
inductive PanicReason
  | missingOwnRound1Package
  | packageCountMismatch
  | gskShardDecryptionFailed
deriving DecidableEq

/-- `dkg::round1::PublicPackage`.  Modelled from the spec: sender identity,
an opaque commitment payload, one encrypted group-secret-key-shard
ciphertext per intended recipient, and a checksum over threshold and
participant set. -/
structure Round1PublicPackage where
  sender : Identity
  frostPackage : Nat
  gskCiphertexts : List (Identity × Nat)
  checksum : Checksum
deriving DecidableEq

/-- `dkg::round2::PublicPackage`.  Modelled from the spec: sender identity,
recipient identity, an opaque share payload, and a checksum over the
Round1 public-package set. -/
structure Round2PublicPackage where
  sender : Identity
  recipient : Identity
  frostPackage : Nat
  checksum : Checksum
deriving DecidableEq

/-- `dkg::round2::SecretPackage`.  Modelled from the spec: carries
`(min_signers, max_signers)` plus the opaque FROST secret part. -/
structure Round2SecretPackage where
  minSigners : Nat
  maxSigners : Nat
  frostPart : Nat
deriving DecidableEq

/-- `round2::get_secret_package_signers`. -/
def get_secret_package_signers (sp : Round2SecretPackage) : Nat × Nat :=
  (sp.minSigners, sp.maxSigners)

/-- Look a key up in an association list. -/
def assocLookup (m : List (Nat × Nat)) (k : Nat) : Option Nat :=
  match m with
  | [] => none
  | (k', v) :: rest => if k' = k then some v else assocLookup rest k

/-- Insert into an association list, overwriting an existing binding for the
key (the behaviour of `BTreeMap::insert` on the stored map). -/
def assocInsert (m : List (Nat × Nat)) (k v : Nat) : List (Nat × Nat) :=
  match m with
  | [] => [(k, v)]
  | (k', v') :: rest => if k' = k then (k, v) :: rest else (k', v') :: assocInsert rest k v

/-- Remove a key from an association list (`BTreeMap::remove`). -/
def assocErase (m : List (Nat × Nat)) (k : Nat) : List (Nat × Nat) :=
  match m with
  | [] => []
  | (k', v') :: rest => if k' = k then rest else (k', v') :: assocErase rest k

/-- Modelled from the spec: the expected checksum over a threshold and a
participant set carried by every Round1 public package
(`Checksum(t, participant set)`, order- and duplicate-invariant). -/
def round1_input_checksum (min_signers : Nat) (participants : List Identity) : Checksum :=
  hashBytes (min_signers ::
    (canonicalParticipants participants).foldr (fun i acc => Identity.serialize i ++ acc) [])

/-- The map from sender FROST identifiers to opaque Round1 payloads rebuilt
by `build_round1_frost_packages`. -/
def round1FrostMap (pkgs : List Round1PublicPackage) : List (Nat × Nat) :=
  pkgs.foldl (fun m p => assocInsert m (Identity.to_frost_identifier p.sender) p.frostPackage) []

/-- Modelled from the spec: `dkg::utils::build_round1_frost_packages`
rejects with `InvalidInput` when the package count does not match
`max_signers`, recomputes the expected `Checksum(t, participant set)` from
the supplied packages, rejects with `ChecksumError` when any package
carries a different checksum, and otherwise returns the checksum and the
per-identifier payload map. -/
def build_round1_frost_packages (pkgs : List Round1PublicPackage)
    (min_signers max_signers : Nat) : Except Error (Checksum × List (Nat × Nat)) :=
  if pkgs.length = max_signers then
    let expected := round1_input_checksum min_signers (pkgs.map (fun p => p.sender))
    if ∀ p ∈ pkgs, p.checksum = expected then
      Except.ok (expected, round1FrostMap pkgs)
    else Except.error (Error.checksumError ChecksumError.dkgPublicPackageError)
  else Except.error (Error.invalidInput InvalidKind.wrongPackageCount)

/-- Modelled from the spec: `round2::input_checksum`, the digest over the
Round1 public-package set that every Round2 package is bound to. -/
def round2_input_checksum (pkgs : List Round1PublicPackage) : Checksum :=
  hashBytes (List.insertionSort (· ≤ ·)
    (pkgs.map (fun p => hashBytes [p.sender, p.frostPackage, p.checksum])))

/-- The loop of `round3` over the supplied Round2 public packages: reject
with `ChecksumError` on a checksum different from the expected value, with
`InvalidInput` on a recipient other than the caller, and with
`InvalidInput` on a duplicate sender; otherwise accumulate the
sender-keyed payload map. -/
def processRound2Packages (identity : Identity) (expected : Checksum) :
    List Round2PublicPackage → List (Nat × Nat) → Except Error (List (Nat × Nat))
  | [], m => Except.ok m
  | p :: rest, m =>
    if p.checksum ≠ expected then
      Except.error (Error.checksumError ChecksumError.dkgPublicPackageError)
    else if p.recipient ≠ identity then
      Except.error (Error.invalidInput InvalidKind.wrongRecipient)
    else if (assocLookup m (Identity.to_frost_identifier p.sender)).isSome then
      Except.error (Error.invalidInput InvalidKind.duplicateSender)
    else
      processRound2Packages identity expected rest
        (assocInsert m (Identity.to_frost_identifier p.sender) p.frostPackage)

/-- Modelled from the spec: `PublicPackage::group_secret_key_shard` —
decrypt the shard ciphertext addressed to the holder of `secret`;
decryption succeeds exactly when a ciphertext for that recipient is
present. -/
def group_secret_key_shard (p : Round1PublicPackage) (secret : Secret) : Option Nat :=
  match p.gskCiphertexts.find? (fun e => e.fst = Secret.to_identity secret) with
  | some e => some e.snd
  | none => none

/-- Decrypt the shard of every Round1 public package with the caller's
secret; `none` as soon as any single decryption fails (the source calls
`expect` per package). -/
def gskShards (secret : Secret) : List Round1PublicPackage → Option (List Nat)
  | [] => some []
  | p :: rest =>
    match group_secret_key_shard p secret, gskShards secret rest with
    | some x, some xs => some (x :: xs)
    | _, _ => none

/-- Modelled from the spec: `GroupSecretKeyShard::combine`, an
order-independent group operation over the decrypted shards. -/
def combineShards (shards : List Nat) : Nat :=
  shards.foldl (fun a b => (a + b) % CHECKSUM_MOD) 0

/-- Modelled from the spec: the threshold primitive's `part3` finalize step,
a deterministic passthrough producing the key package and public key
package. -/
def part3 (sp : Round2SecretPackage) (m1 m2 : List (Nat × Nat)) :
    Except Nat (Nat × Nat) :=
  Except.ok (hashBytes (2 :: sp.frostPart :: (m1.map Prod.snd ++ m2.map Prod.snd)),
    hashBytes (3 :: sp.frostPart :: (m1.map Prod.snd ++ m2.map Prod.snd)))

/-- The observable outcome of a `round3` call: a successful triple
`(KeyPackage, PublicKeyPackage, GroupSecretKey)`, a returned error, or a
process abort (`expect`/`assert_eq` in the source). -/
inductive Round3Outcome
  | ok : Nat → Nat → Nat → Round3Outcome
  | err : Error → Round3Outcome
  | panicked : PanicReason → Round3Outcome
deriving DecidableEq

/-- `round3` from `src/dkg/round3.rs`, translated step by step: derive the
signer bounds, rebuild and validate the Round1 map, remove the caller's own
entry (aborting when absent), recompute the expected Round2 checksum,
validate every Round2 package in order, check the package counts, invoke
`part3`, then decrypt and combine the group-secret-key shards (aborting on
a failed decryption). -/
def round3 (secret : Secret) (round2_secret_package : Round2SecretPackage)
    (round1_public_packages : List Round1PublicPackage)
    (round2_public_packages : List Round2PublicPackage) : Round3Outcome :=
  match build_round1_frost_packages round1_public_packages
      (get_secret_package_signers round2_secret_package).fst
      (get_secret_package_signers round2_secret_package).snd with
  | Except.error e => Round3Outcome.err e
  | Except.ok pair =>
    match assocLookup pair.snd
        (Identity.to_frost_identifier (Secret.to_identity secret)) with
    | none => Round3Outcome.panicked PanicReason.missingOwnRound1Package
    | some _ =>
      match processRound2Packages (Secret.to_identity secret)
          (round2_input_checksum round1_public_packages)
          round2_public_packages [] with
      | Except.error e => Round3Outcome.err e
      | Except.ok round2_frost_packages =>
        if (assocErase pair.snd
            (Identity.to_frost_identifier (Secret.to_identity secret))).length =
            round2_frost_packages.length then
          match part3 round2_secret_package
              (assocErase pair.snd
                (Identity.to_frost_identifier (Secret.to_identity secret)))
              round2_frost_packages with
          | Except.error e => Round3Outcome.err (Error.frostError e)
          | Except.ok result =>
            match gskShards secret round1_public_packages with
            | none => Round3Outcome.panicked PanicReason.gskShardDecryptionFailed
            | some shards =>
              Round3Outcome.ok result.fst result.snd (combineShards shards)
        else Round3Outcome.panicked PanicReason.packageCountMismatch


/-! ## Basic lemmas -/

instance {ε α : Type} [DecidableEq ε] [DecidableEq α] : DecidableEq (Except ε α) := fun a b =>
  match a, b with
  | Except.ok x, Except.ok y => decidable_of_iff (x = y) (by simp)
  | Except.error x, Except.error y => decidable_of_iff (x = y) (by simp)
  | Except.ok _, Except.error _ => isFalse (by simp)
  | Except.error _, Except.ok _ => isFalse (by simp)

theorem Signature.length_to_bytes (s : Signature) :
    (Signature.to_bytes s).length = SIGNATURE_BYTE_SIZE := s.2

theorem identity_serialize_length (i : Identity) :
    (Identity.serialize i).length = IDENTITY_LEN := by
  simp [Identity.serialize, IDENTITY_LEN]

theorem nonce_serialize_length (n : NonceCommitment) :
    (NonceCommitment.serialize n).length = NONCE_COMMITMENT_LEN := by
  simp [NonceCommitment.serialize, NONCE_COMMITMENT_LEN]

theorem Checksum.length_to_le_bytes (n : Checksum) :
    (Checksum.to_le_bytes n).length = CHECKSUM_LEN := by
  simp [Checksum.to_le_bytes, CHECKSUM_LEN]

theorem serialize_length (c : SigningCommitment) :
    (SigningCommitment.serialize c).length = SIGNING_COMMITMENT_LEN := by
  unfold SigningCommitment.serialize
  rw [List.length_append, List.length_append, List.length_append, List.length_append,
    Signature.length_to_bytes, identity_serialize_length, nonce_serialize_length,
    nonce_serialize_length, Checksum.length_to_le_bytes]
  decide

/-! ## C5, C9, C10 -/

/-- C5: for every SigningCommitment, `serialize` produces exactly the
concatenation signature, identity, hiding commitment, binding commitment,
checksum, in that fixed order with fixed widths, and the total serialized
length equals signature width + identity width + 2 times 32 + 8 bytes. -/
theorem serialize_layout_and_length (c : SigningCommitment) :
    SigningCommitment.serialize c =
      Signature.to_bytes c.signature ++ Identity.serialize c.identity ++
        NonceCommitment.serialize c.raw_commitments.hidingCm ++
        NonceCommitment.serialize c.raw_commitments.bindingCm ++
        Checksum.to_le_bytes c.checksum ∧
    (SigningCommitment.serialize c).length = SIGNING_COMMITMENT_LEN ∧
    SIGNING_COMMITMENT_LEN = SIGNATURE_BYTE_SIZE + IDENTITY_LEN + 2 * 32 + 8 := by
  refine ⟨rfl, serialize_length c, by decide⟩

/-- C9: `from_secrets` consumes no randomness (it is a pure function of its
four inputs in this embedding, mirroring that the source function takes no
RNG); two invocations on identical inputs produce identical commitments,
identical in every field and in serialized form. -/
theorem from_secrets_deterministic (s₁ s₂ : Secret) (sh₁ sh₂ : SigningShare)
    (tx₁ tx₂ : List Byte) (ps₁ ps₂ : List Identity)
    (hs : s₁ = s₂) (hsh : sh₁ = sh₂) (htx : tx₁ = tx₂) (hps : ps₁ = ps₂) :
    SigningCommitment.from_secrets s₁ sh₁ tx₁ ps₁ =
      SigningCommitment.from_secrets s₂ sh₂ tx₂ ps₂ ∧
    (SigningCommitment.from_secrets s₁ sh₁ tx₁ ps₁).serialize =
      (SigningCommitment.from_secrets s₂ sh₂ tx₂ ps₂).serialize := by
  subst hs; subst hsh; subst htx; subst hps; exact ⟨rfl, rfl⟩

/-- Witness for C9 at concrete inputs. -/
theorem from_secrets_deterministic_witness :
    SigningCommitment.from_secrets 5 7 [9, 8] [1, 2] =
      SigningCommitment.from_secrets 5 7 [9, 8] [1, 2] ∧
    (SigningCommitment.from_secrets 5 7 [9, 8] [1, 2]).serialize =
      (SigningCommitment.from_secrets 5 7 [9, 8] [1, 2]).serialize :=
  from_secrets_deterministic 5 5 7 7 [9, 8] [9, 8] [1, 2] [1, 2] rfl rfl rfl rfl

/-- C10: a SigningCommitment freshly constructed by `from_secrets` passes
both of its own checks: `verify_authenticity` returns Ok, and
`verify_checksum` against the same transaction hash and signer list
returns Ok. -/
theorem from_secrets_self_verifies (s : Secret) (sh : SigningShare)
    (tx : List Byte) (ps : List Identity) :
    (SigningCommitment.from_secrets s sh tx ps).verify_authenticity = Except.ok () ∧
    (SigningCommitment.from_secrets s sh tx ps).verify_checksum tx ps = Except.ok () := by
  constructor
  · simp [SigningCommitment.from_secrets, SigningCommitment.verify_authenticity,
      Identity.verify_data, Secret.sign]
  · simp [SigningCommitment.from_secrets, SigningCommitment.verify_checksum]

/-! ## Canonicalization lemmas and C8 -/

theorem dedupConsec_mem : ∀ (l : List Identity) (x : Identity), x ∈ dedupConsec l ↔ x ∈ l
  | [], x => by simp [dedupConsec]
  | [a], x => by simp [dedupConsec]
  | a :: b :: rest, x => by
    by_cases h : a = b
    · rw [dedupConsec, if_pos h, dedupConsec_mem (b :: rest) x]
      subst h
      simp only [List.mem_cons]
      tauto
    · rw [dedupConsec, if_neg h]
      simp only [List.mem_cons, dedupConsec_mem (b :: rest) x]

theorem dedupConsec_sorted : ∀ {l : List Identity}, l.Sorted (· ≤ ·) →
    (dedupConsec l).Sorted (· ≤ ·)
  | [], _ => by simp [dedupConsec]
  | [a], _ => by simp [dedupConsec]
  | a :: b :: rest, h => by
    have htail : (b :: rest).Sorted (· ≤ ·) := h.of_cons
    by_cases hab : a = b
    · rw [dedupConsec, if_pos hab]
      exact dedupConsec_sorted htail
    · rw [dedupConsec, if_neg hab]
      refine List.sorted_cons.2 ⟨?_, dedupConsec_sorted htail⟩
      intro y hy
      exact List.rel_of_sorted_cons h y ((dedupConsec_mem (b :: rest) y).1 hy)

theorem dedupConsec_nodup : ∀ {l : List Identity}, l.Sorted (· ≤ ·) →
    (dedupConsec l).Nodup
  | [], _ => by simp [dedupConsec]
  | [a], _ => by simp [dedupConsec]
  | a :: b :: rest, h => by
    have htail : (b :: rest).Sorted (· ≤ ·) := h.of_cons
    by_cases hab : a = b
    · rw [dedupConsec, if_pos hab]
      exact dedupConsec_nodup htail
    · rw [dedupConsec, if_neg hab]
      refine List.nodup_cons.2 ⟨?_, dedupConsec_nodup htail⟩
      intro hmem
      have hmem' : a ∈ b :: rest := (dedupConsec_mem (b :: rest) a).1 hmem
      rcases List.mem_cons.1 hmem' with h1 | h1
      · exact hab h1
      · have hab' : a ≤ b := List.rel_of_sorted_cons h b (List.mem_cons_self b rest)
        have hba : b ≤ a := List.rel_of_sorted_cons htail a h1
        exact hab (le_antisymm hab' hba)

theorem canonicalParticipants_sorted (l : List Identity) :
    (canonicalParticipants l).Sorted (· ≤ ·) :=
  dedupConsec_sorted (List.sorted_insertionSort (· ≤ ·) l)

theorem canonicalParticipants_nodup (l : List Identity) :
    (canonicalParticipants l).Nodup :=
  dedupConsec_nodup (List.sorted_insertionSort (· ≤ ·) l)

theorem canonicalParticipants_mem (l : List Identity) (x : Identity) :
    x ∈ canonicalParticipants l ↔ x ∈ l := by
  rw [canonicalParticipants, dedupConsec_mem]
  exact (List.perm_insertionSort (· ≤ ·) l).mem_iff

theorem canonicalParticipants_eq_of_mem_iff {l₁ l₂ : List Identity}
    (h : ∀ x, x ∈ l₁ ↔ x ∈ l₂) :
    canonicalParticipants l₁ = canonicalParticipants l₂ := by
  refine List.eq_of_perm_of_sorted ?_ (canonicalParticipants_sorted l₁)
    (canonicalParticipants_sorted l₂)
  refine (List.perm_ext_iff_of_nodup (canonicalParticipants_nodup l₁)
    (canonicalParticipants_nodup l₂)).2 ?_
  intro a
  rw [canonicalParticipants_mem, canonicalParticipants_mem]
  exact h a

/-- C8: the signing-commitment input checksum is invariant under permutation
and duplication of the participant list: any two participant lists that are
equal as sets produce the same checksum for the same transaction hash. -/
theorem input_checksum_set_invariant (tx : List Byte) (ps₁ ps₂ : List Identity)
    (h : ∀ x, x ∈ ps₁ ↔ x ∈ ps₂) :
    input_checksum tx ps₁ = input_checksum tx ps₂ := by
  unfold input_checksum
  rw [canonicalParticipants_eq_of_mem_iff h]

/-- Witness for C8: a permuted list with a duplicate produces the same
checksum as the plain list. -/
theorem input_checksum_set_invariant_witness :
    input_checksum [7, 9] [2, 1, 1] = input_checksum [7, 9] [1, 2] :=
  input_checksum_set_invariant [7, 9] [2, 1, 1] [1, 2] (by intro x; simp; tauto)

/-! ## C4: deserialization re-runs the authenticity check -/

theorem from_raw_parts_ok_verifies {idt : Identity} {rc : SigningCommitments}
    {cs : Checksum} {sig : Signature} {c : SigningCommitment}
    (h : SigningCommitment.from_raw_parts idt rc cs sig = Except.ok c) :
    c.verify_authenticity = Except.ok () := by
  unfold SigningCommitment.from_raw_parts at h
  split at h
  · cases h
    rename_i u heq
    cases u
    exact heq
  · cases h

theorem from_raw_parts_error_of_not_verifies {idt : Identity} {rc : SigningCommitments}
    {cs : Checksum} {sig : Signature}
    (h : (SigningCommitment.mk idt rc cs sig).verify_authenticity ≠ Except.ok ()) :
    SigningCommitment.from_raw_parts idt rc cs sig =
      Except.error SignatureError.invalidSignature := by
  unfold SigningCommitment.from_raw_parts
  split
  · rename_i u heq
    cases u
    exact absurd heq h
  · rename_i e heq
    cases e
    rfl

/-- C4: `deserialize_from` performs the authenticity verification as part of
parsing: deserialization succeeds only for values whose embedded signature
verifies over the reconstructed authenticated payload, and a byte string
whose five fields parse structurally but whose signature does not verify is
rejected with a parse error. -/
theorem deserialize_from_authenticity_gate :
    (∀ (bytes : List Byte) (c : SigningCommitment),
        SigningCommitment.deserialize_from bytes = Except.ok c →
        c.verify_authenticity = Except.ok ()) ∧
    (∀ (bytes : List Byte) (sig : Signature) (idt : Identity)
        (rc : SigningCommitments) (cs : Checksum),
        SigningCommitment.rawParse bytes = Except.ok (sig, idt, rc, cs) →
        Identity.verify_data idt (authenticated_data idt rc cs) sig ≠ Except.ok () →
        SigningCommitment.deserialize_from bytes =
          Except.error SigningCommitment.DeserializeError.signatureError) := by
  constructor
  · intro bytes c h
    cases hp : SigningCommitment.rawParse bytes with
    | error e => simp [SigningCommitment.deserialize_from, hp] at h
    | ok parts =>
      cases hfr : SigningCommitment.from_raw_parts parts.2.1 parts.2.2.1 parts.2.2.2
          parts.1 with
      | ok c' =>
        have hcc : c' = c := by
          simp [SigningCommitment.deserialize_from, hp, hfr] at h
          exact h
        subst hcc
        exact from_raw_parts_ok_verifies hfr
      | error e => simp [SigningCommitment.deserialize_from, hp, hfr] at h
  · intro bytes sig idt rc cs hparse hver
    have herr : SigningCommitment.from_raw_parts idt rc cs sig =
        Except.error SignatureError.invalidSignature :=
      from_raw_parts_error_of_not_verifies hver
    simp [SigningCommitment.deserialize_from, hparse, herr]

set_option maxRecDepth 40000 in
/-- Witness for C4 at concrete inputs: a valid serialization deserializes to
a commitment that verifies, and the same serialization with its first
signature byte overwritten parses structurally but is rejected with a parse
error. -/
theorem deserialize_from_authenticity_gate_witness :
    (SigningCommitment.from_secrets 5 7 [9, 8] [1, 2]).verify_authenticity = Except.ok () ∧
    SigningCommitment.deserialize_from
        ((SigningCommitment.from_secrets 5 7 [9, 8] [1, 2]).serialize.set 0 255) =
      Except.error SigningCommitment.DeserializeError.signatureError := by
  constructor
  · exact deserialize_from_authenticity_gate.1
      (SigningCommitment.from_secrets 5 7 [9, 8] [1, 2]).serialize
      (SigningCommitment.from_secrets 5 7 [9, 8] [1, 2]) (by decide)
  · exact deserialize_from_authenticity_gate.2
      ((SigningCommitment.from_secrets 5 7 [9, 8] [1, 2]).serialize.set 0 255)
      (SigningCommitment.bytesToSignature
        (((SigningCommitment.from_secrets 5 7 [9, 8] [1, 2]).serialize.set 0 255).take 64))
      5 ((deterministic_signing_nonces 7 [9, 8] [1, 2]).commitments)
      (input_checksum [9, 8] [1, 2]) (by decide) (by decide)

/-! ## C6: serialize then deserialize is the identity -/

theorem hashBytes_aux_lt (l : List Byte) (a : Nat) (ha : a < CHECKSUM_MOD) :
    l.foldl hashStep a < CHECKSUM_MOD := by
  induction l generalizing a with
  | nil => exact ha
  | cons b rest ih =>
    exact ih (hashStep a b) (Nat.mod_lt _ (by decide))

theorem hashBytes_lt (l : List Byte) : hashBytes l < CHECKSUM_MOD :=
  hashBytes_aux_lt l 0 (by decide)

theorem from_le_to_le {n : Nat} (h : n < CHECKSUM_MOD) :
    Checksum.from_le_bytes (Checksum.to_le_bytes n) = n := by
  simp only [Checksum.from_le_bytes, Checksum.to_le_bytes, List.getD_cons_zero,
    List.getD_cons_succ]
  simp only [CHECKSUM_MOD] at h
  show n % 256 + 256 * (n / 256 % 256) + 65536 * (n / 65536 % 256) +
      16777216 * (n / 16777216 % 256) + 4294967296 * (n / 4294967296 % 256) +
      1099511627776 * (n / 1099511627776 % 256) +
      281474976710656 * (n / 281474976710656 % 256) +
      72057594037927936 * (n / 72057594037927936 % 256) = n
  omega

theorem identity_chunk_roundtrip (i : Identity) :
    Identity.deserializeChunk (Identity.serialize i) = some i := by
  simp [Identity.deserializeChunk, Identity.serialize]

theorem nonce_chunk_roundtrip (n : NonceCommitment) :
    NonceCommitment.deserializeChunk (NonceCommitment.serialize n) = some n := by
  simp [NonceCommitment.deserializeChunk, NonceCommitment.serialize]

theorem padToSig_of_length {l : List Byte} (h : l.length = SIGNATURE_BYTE_SIZE) :
    padToSig l = l :=
  List.take_left' h

theorem bytesToSignature_to_bytes (s : Signature) :
    SigningCommitment.bytesToSignature (Signature.to_bytes s) = s :=
  Subtype.ext (padToSig_of_length s.2)

theorem rawParse_chunks (S I H B Cs : List Byte) (hS : S.length = 64)
    (hI : I.length = 129) (hH : H.length = 32) (hB : B.length = 32)
    (hCs : Cs.length = 8) :
    SigningCommitment.rawParse (S ++ (I ++ (H ++ (B ++ Cs)))) =
      match Identity.deserializeChunk I with
      | none => Except.error SigningCommitment.DeserializeError.invalidEncoding
      | some idt =>
        match NonceCommitment.deserializeChunk H with
        | none => Except.error SigningCommitment.DeserializeError.invalidEncoding
        | some hcm =>
          match NonceCommitment.deserializeChunk B with
          | none => Except.error SigningCommitment.DeserializeError.invalidEncoding
          | some bcm =>
            Except.ok (SigningCommitment.bytesToSignature S, idt,
              SigningCommitments.mk hcm bcm, Checksum.from_le_bytes Cs) := by
  have hlen : SIGNING_COMMITMENT_LEN ≤ (S ++ (I ++ (H ++ (B ++ Cs)))).length := by
    simp [List.length_append, hS, hI, hH, hB, hCs, SIGNING_COMMITMENT_LEN,
      AUTHENTICATED_DATA_LEN, IDENTITY_LEN, NONCE_COMMITMENT_LEN, CHECKSUM_LEN,
      SIGNATURE_BYTE_SIZE]
  have ht64 : (S ++ (I ++ (H ++ (B ++ Cs)))).take 64 = S := List.take_left' hS
  have hd64 : (S ++ (I ++ (H ++ (B ++ Cs)))).drop 64 = I ++ (H ++ (B ++ Cs)) :=
    List.drop_left' hS
  have hd193 : (S ++ (I ++ (H ++ (B ++ Cs)))).drop 193 = H ++ (B ++ Cs) := by
    rw [show (193 : Nat) = 64 + 129 from rfl, ← List.drop_drop, hd64, List.drop_left' hI]
  have hd225 : (S ++ (I ++ (H ++ (B ++ Cs)))).drop 225 = B ++ Cs := by
    rw [show (225 : Nat) = 193 + 32 from rfl, ← List.drop_drop, hd193, List.drop_left' hH]
  have hd257 : (S ++ (I ++ (H ++ (B ++ Cs)))).drop 257 = Cs := by
    rw [show (257 : Nat) = 225 + 32 from rfl, ← List.drop_drop, hd225, List.drop_left' hB]
  unfold SigningCommitment.rawParse
  rw [if_pos hlen, ht64, hd64, List.take_left' hI, hd193, List.take_left' hH, hd225,
    List.take_left' hB, hd257, List.take_of_length_le (le_of_eq hCs)]

theorem serialize_eq_chunks (c : SigningCommitment) :
    SigningCommitment.serialize c =
      Signature.to_bytes c.signature ++ (Identity.serialize c.identity ++
        (NonceCommitment.serialize c.raw_commitments.hidingCm ++
          (NonceCommitment.serialize c.raw_commitments.bindingCm ++
            Checksum.to_le_bytes c.checksum))) := by
  simp [SigningCommitment.serialize, List.append_assoc]

theorem rawParse_serialize (c : SigningCommitment) :
    SigningCommitment.rawParse (SigningCommitment.serialize c) =
      Except.ok (c.signature, c.identity, c.raw_commitments,
        Checksum.from_le_bytes (Checksum.to_le_bytes c.checksum)) := by
  rw [serialize_eq_chunks]
  rw [rawParse_chunks _ _ _ _ _ (Signature.length_to_bytes c.signature)
    (identity_serialize_length _) (nonce_serialize_length _)
    (nonce_serialize_length _) (Checksum.length_to_le_bytes _)]
  simp [identity_chunk_roundtrip, nonce_chunk_roundtrip,
    bytesToSignature_to_bytes]

/-- C6: deserializing the serialization of any commitment constructed by
`from_secrets` succeeds and yields the original commitment. -/
theorem serialize_deserialize_roundtrip (s : Secret) (sh : SigningShare)
    (tx : List Byte) (ps : List Identity) :
    SigningCommitment.deserialize_from
        (SigningCommitment.from_secrets s sh tx ps).serialize =
      Except.ok (SigningCommitment.from_secrets s sh tx ps) := by
  have hcs : (SigningCommitment.from_secrets s sh tx ps).checksum < CHECKSUM_MOD :=
    hashBytes_lt _
  have hp := rawParse_serialize (SigningCommitment.from_secrets s sh tx ps)
  rw [from_le_to_le hcs] at hp
  have hfr : SigningCommitment.from_raw_parts
      (SigningCommitment.from_secrets s sh tx ps).identity
      (SigningCommitment.from_secrets s sh tx ps).raw_commitments
      (SigningCommitment.from_secrets s sh tx ps).checksum
      (SigningCommitment.from_secrets s sh tx ps).signature =
      Except.ok (SigningCommitment.from_secrets s sh tx ps) := by
    unfold SigningCommitment.from_raw_parts
    rw [show SigningCommitment.mk (SigningCommitment.from_secrets s sh tx ps).identity
      (SigningCommitment.from_secrets s sh tx ps).raw_commitments
      (SigningCommitment.from_secrets s sh tx ps).checksum
      (SigningCommitment.from_secrets s sh tx ps).signature =
      SigningCommitment.from_secrets s sh tx ps from rfl]
    rw [(from_secrets_self_verifies s sh tx ps).1]
  simp [SigningCommitment.deserialize_from, hp, hfr]

/-! ## Round3 processing lemmas -/

theorem assocLookup_insert : ∀ (m : List (Nat × Nat)) (k v k' : Nat),
    assocLookup (assocInsert m k v) k' = if k = k' then some v else assocLookup m k'
  | [], k, v, k' => by simp [assocInsert, assocLookup]
  | (k₀, v₀) :: rest, k, v, k' => by
    by_cases h : k₀ = k
    · subst h
      simp only [assocInsert, if_pos rfl, assocLookup]
      by_cases h2 : k₀ = k' <;> simp [h2]
    · simp only [assocInsert, if_neg h, assocLookup, assocLookup_insert rest k v k']
      by_cases h2 : k₀ = k'
      · subst h2
        rw [if_pos rfl, if_neg (fun hk => h hk.symm), if_pos rfl]
      · rw [if_neg h2, if_neg h2]

theorem processRound2_error_before_bad (idt : Identity) (exp : Checksum)
    (bad : Round2PublicPackage) (hbad : bad.checksum ≠ exp) :
    ∀ (pre : List Round2PublicPackage) (post : List Round2PublicPackage)
      (m : List (Nat × Nat)),
      (∀ p ∈ pre, p.checksum = exp ∧ p.recipient = idt) →
      (pre.map (fun p => p.sender)).Nodup →
      (∀ p ∈ pre, assocLookup m p.sender = none) →
      processRound2Packages idt exp (pre ++ bad :: post) m =
        Except.error (Error.checksumError ChecksumError.dkgPublicPackageError)
  | [], post, m, _, _, _ => by
    rw [List.nil_append, processRound2Packages, if_pos hbad]
  | a :: pre, post, m, hpre, hnodup, hdisj => by
    rw [List.cons_append, processRound2Packages]
    obtain ⟨hck, hrec⟩ := hpre a (List.mem_cons_self a pre)
    have hnone : assocLookup m (Identity.to_frost_identifier a.sender) = none :=
      hdisj a (List.mem_cons_self a pre)
    rw [if_neg (by simp [hck]), if_neg (by simp [hrec]), hnone]
    simp only [Option.isSome_none, Bool.false_eq_true, if_false]
    refine processRound2_error_before_bad idt exp bad hbad pre post _
      (fun p hp => hpre p (List.mem_cons_of_mem a hp))
      ((List.nodup_cons.1 hnodup).2) ?_
    intro p hp
    show assocLookup (assocInsert m a.sender a.frostPackage) p.sender = none
    rw [assocLookup_insert]
    have hne : a.sender ≠ p.sender := by
      intro hcontra
      exact (List.nodup_cons.1 hnodup).1 (List.mem_map.2 ⟨p, hp, hcontra.symm⟩)
    rw [if_neg hne]
    exact hdisj p (List.mem_cons_of_mem a hp)

theorem processRound2_ok_all (idt : Identity) (exp : Checksum) :
    ∀ (l : List Round2PublicPackage) (m m' : List (Nat × Nat)),
      processRound2Packages idt exp l m = Except.ok m' →
      (∀ p ∈ l, p.checksum = exp ∧ p.recipient = idt ∧
        assocLookup m p.sender = none) ∧
      (l.map (fun p => p.sender)).Nodup
  | [], m, m', _ => by simp
  | p :: rest, m, m', h => by
    rw [processRound2Packages] at h
    by_cases h1 : p.checksum ≠ exp
    · rw [if_pos h1] at h
      cases h
    rw [if_neg h1] at h
    by_cases h2 : p.recipient ≠ idt
    · rw [if_pos h2] at h
      cases h
    rw [if_neg h2] at h
    by_cases h3 : (assocLookup m (Identity.to_frost_identifier p.sender)).isSome = true
    · rw [if_pos h3] at h
      cases h
    rw [if_neg h3] at h
    have hck : p.checksum = exp := not_not.1 h1
    have hrec : p.recipient = idt := not_not.1 h2
    have hnone : assocLookup m (Identity.to_frost_identifier p.sender) = none :=
      Option.not_isSome_iff_eq_none.1 (by simpa using h3)
    obtain ⟨hall, hnodup⟩ := processRound2_ok_all idt exp rest _ m' h
    constructor
    · intro q hq
      rcases List.mem_cons.1 hq with hq | hq
      · subst hq
        exact ⟨hck, hrec, hnone⟩
      · obtain ⟨hq1, hq2, hq3⟩ := hall q hq
        refine ⟨hq1, hq2, ?_⟩
        have hq3' : assocLookup (assocInsert m p.sender p.frostPackage) q.sender =
            none := hq3
        rw [assocLookup_insert] at hq3'
        by_cases hpq : p.sender = q.sender
        · rw [if_pos hpq] at hq3'
          cases hq3'
        · rw [if_neg hpq] at hq3'
          exact hq3'
    · rw [List.map_cons, List.nodup_cons]
      refine ⟨?_, hnodup⟩
      intro hmem
      obtain ⟨q, hq, hqs⟩ := List.mem_map.1 hmem
      obtain ⟨_, _, hq3⟩ := hall q hq
      have hq3' : assocLookup (assocInsert m p.sender p.frostPackage) q.sender =
          none := hq3
      rw [assocLookup_insert, if_pos hqs.symm] at hq3'
      cases hq3'

theorem processRound2_error_invalid (idt : Identity) (exp : Checksum) :
    ∀ (l : List Round2PublicPackage) (m : List (Nat × Nat)) (e : Error),
      (∀ p ∈ l, p.checksum = exp) →
      processRound2Packages idt exp l m = Except.error e →
      e = Error.invalidInput InvalidKind.wrongRecipient ∨
        e = Error.invalidInput InvalidKind.duplicateSender
  | [], m, e, _, h => by simp [processRound2Packages] at h
  | p :: rest, m, e, hall, h => by
    rw [processRound2Packages] at h
    rw [if_neg (by simp [hall p (List.mem_cons_self p rest)])] at h
    by_cases h2 : p.recipient ≠ idt
    · rw [if_pos h2] at h
      cases h
      left
      rfl
    · rw [if_neg h2] at h
      by_cases h3 : (assocLookup m (Identity.to_frost_identifier p.sender)).isSome = true
      · rw [if_pos h3] at h
        cases h
        right
        rfl
      · rw [if_neg h3] at h
        exact processRound2_error_invalid idt exp rest _ e
          (fun q hq => hall q (List.mem_cons_of_mem p hq)) h

theorem round3_reduces_to_process_error (secret : Secret) (sp : Round2SecretPackage)
    (r1 : List Round1PublicPackage) (r2 : List Round2PublicPackage)
    (hlen : r1.length = sp.maxSigners)
    (hck : ∀ p ∈ r1, p.checksum =
      round1_input_checksum sp.minSigners (r1.map (fun q => q.sender)))
    (hown : (assocLookup (round1FrostMap r1) (Secret.to_identity secret)).isSome = true)
    (e : Error)
    (hproc : processRound2Packages (Secret.to_identity secret)
      (round2_input_checksum r1) r2 [] = Except.error e) :
    round3 secret sp r1 r2 = Round3Outcome.err e := by
  obtain ⟨v, hv⟩ := Option.isSome_iff_exists.1 hown
  unfold round3
  have hbuild : build_round1_frost_packages r1
      (get_secret_package_signers sp).fst (get_secret_package_signers sp).snd =
      Except.ok (round1_input_checksum sp.minSigners (r1.map (fun q => q.sender)),
        round1FrostMap r1) := by
    unfold build_round1_frost_packages
    rw [show (get_secret_package_signers sp).snd = sp.maxSigners from rfl,
      show (get_secret_package_signers sp).fst = sp.minSigners from rfl,
      if_pos hlen, if_pos hck]
  rw [hbuild]
  show (match assocLookup (round1FrostMap r1)
      (Identity.to_frost_identifier (Secret.to_identity secret)) with
    | none => Round3Outcome.panicked PanicReason.missingOwnRound1Package
    | some _ => _) = _
  rw [show Identity.to_frost_identifier (Secret.to_identity secret) =
    Secret.to_identity secret from rfl, hv]
  show (match processRound2Packages (Secret.to_identity secret)
      (round2_input_checksum r1) r2 [] with
    | Except.error e => Round3Outcome.err e
    | Except.ok _ => _) = _
  rw [hproc]

/-! ## Concrete DKG round3 scenarios (t = 2, n = 3, caller identity 1) -/

/-- The consistent Round1 checksum for threshold 2 and participants 1, 2, 3. -/
def cexR1Checksum : Checksum := round1_input_checksum 2 [1, 2, 3]

/-- The caller's Round2 secret package for a 2-of-3 session. -/
def cexSp : Round2SecretPackage := ⟨2, 3, 0⟩

/-- A consistent Round1 public-package set where every shard ciphertext for
identity 1 is present. -/
def cexRound1 : List Round1PublicPackage :=
  [⟨1, 10, [(1, 101)], cexR1Checksum⟩,
   ⟨2, 20, [(1, 102)], cexR1Checksum⟩,
   ⟨3, 30, [(1, 103)], cexR1Checksum⟩]

/-- The expected Round2 checksum over `cexRound1`. -/
def cexExpected : Checksum := round2_input_checksum cexRound1

/-- A valid Round2 set addressed to identity 1. -/
def cexGoodR2 : List Round2PublicPackage :=
  [⟨2, 1, 20, cexExpected⟩, ⟨3, 1, 30, cexExpected⟩]

/-- A Round2 set in which a wrong-recipient package (matching checksum)
precedes a package with a mismatched checksum. -/
def cexC1R2 : List Round2PublicPackage :=
  [⟨2, 2, 20, cexExpected⟩, ⟨3, 1, 30, cexExpected + 1⟩]

/-- A Round2 set in which a mismatched-checksum package precedes a
wrong-recipient package whose checksum matches. -/
def cexC3R2 : List Round2PublicPackage :=
  [⟨2, 1, 20, cexExpected + 1⟩, ⟨3, 2, 30, cexExpected⟩]

/-- A Round2 set whose only defect is a wrong recipient. -/
def cexC3WrongRec : List Round2PublicPackage :=
  [⟨2, 2, 20, cexExpected⟩, ⟨3, 1, 30, cexExpected⟩]

/-- A Round2 set whose only defect is a duplicated sender. -/
def cexC3Dup : List Round2PublicPackage :=
  [⟨2, 1, 20, cexExpected⟩, ⟨2, 1, 25, cexExpected⟩]

/-- A consistent Round1 set in which the package from sender 2 carries no
shard ciphertext for identity 1, so the caller cannot decrypt its shard. -/
def cexRound1Missing : List Round1PublicPackage :=
  [⟨1, 10, [(1, 101)], cexR1Checksum⟩,
   ⟨2, 20, [(5, 102)], cexR1Checksum⟩,
   ⟨3, 30, [(1, 103)], cexR1Checksum⟩]

/-- A valid Round2 set for `cexRound1Missing`. -/
def cexC2R2 : List Round2PublicPackage :=
  [⟨2, 1, 20, round2_input_checksum cexRound1Missing⟩,
   ⟨3, 1, 30, round2_input_checksum cexRound1Missing⟩]

/-! ## C1: checksum mismatch in a Round2 package -/

theorem round3_ok_implies_process_ok {secret : Secret} {sp : Round2SecretPackage}
    {r1 : List Round1PublicPackage} {r2 : List Round2PublicPackage}
    {kp pkp g : Nat}
    (h : round3 secret sp r1 r2 = Round3Outcome.ok kp pkp g) :
    ∃ m', processRound2Packages (Secret.to_identity secret)
      (round2_input_checksum r1) r2 [] = Except.ok m' := by
  unfold round3 at h
  split at h
  · cases h
  · split at h
    · cases h
    · split at h
      · cases h
      · rename_i m2 hproc
        exact ⟨m2, hproc⟩

/-- C1 (corrected): when some supplied Round2 public package carries a
checksum different from the recomputed expected value, `round3` never
returns key material; and it returns `ChecksumError` provided the Round1
set itself passes validation (count matches `max_signers`, consistent
checksums, caller's package present) and every Round2 package preceding
the first mismatching one passes the checksum, recipient and
duplicate-sender checks. -/
theorem round3_checksum_mismatch_claim :
    (∀ (secret : Secret) (sp : Round2SecretPackage)
        (r1 : List Round1PublicPackage) (r2 : List Round2PublicPackage),
      (∃ p ∈ r2, p.checksum ≠ round2_input_checksum r1) →
      ∀ kp pkp g, round3 secret sp r1 r2 ≠ Round3Outcome.ok kp pkp g) ∧
    (∀ (secret : Secret) (sp : Round2SecretPackage)
        (r1 : List Round1PublicPackage)
        (pre post : List Round2PublicPackage) (bad : Round2PublicPackage),
      r1.length = sp.maxSigners →
      (∀ p ∈ r1, p.checksum =
        round1_input_checksum sp.minSigners (r1.map (fun q => q.sender))) →
      (assocLookup (round1FrostMap r1) (Secret.to_identity secret)).isSome = true →
      bad.checksum ≠ round2_input_checksum r1 →
      (∀ p ∈ pre, p.checksum = round2_input_checksum r1 ∧
        p.recipient = Secret.to_identity secret) →
      (pre.map (fun p => p.sender)).Nodup →
      round3 secret sp r1 (pre ++ bad :: post) =
        Round3Outcome.err (Error.checksumError ChecksumError.dkgPublicPackageError)) := by
  constructor
  · intro secret sp r1 r2 hex kp pkp g h
    obtain ⟨bad, hmem, hb⟩ := hex
    obtain ⟨m', hm'⟩ := round3_ok_implies_process_ok h
    obtain ⟨hall, _⟩ := processRound2_ok_all _ _ r2 [] m' hm'
    exact hb (hall bad hmem).1
  · intro secret sp r1 pre post bad hlen hck hown hbad hpre hnodup
    refine round3_reduces_to_process_error secret sp r1 _ hlen hck hown _ ?_
    exact processRound2_error_before_bad _ _ bad hbad pre post []
      hpre hnodup (fun p _ => rfl)

set_option maxRecDepth 100000 in
/-- C1 counterexample: with a wrong-recipient (but checksum-correct)
package ahead of the checksum-mismatched one, `round3` returns
`InvalidInput`, not `ChecksumError`, although a mismatched-checksum package
is present. -/
theorem round3_checksum_mismatch_claim_counterexample :
    (∃ p ∈ cexC1R2, p.checksum ≠ round2_input_checksum cexRound1) ∧
    round3 1 cexSp cexRound1 cexC1R2 =
      Round3Outcome.err (Error.invalidInput InvalidKind.wrongRecipient) ∧
    (∀ ce, round3 1 cexSp cexRound1 cexC1R2 ≠
      Round3Outcome.err (Error.checksumError ce)) := by
  have h2 : round3 1 cexSp cexRound1 cexC1R2 =
      Round3Outcome.err (Error.invalidInput InvalidKind.wrongRecipient) := by decide
  refine ⟨by decide, h2, ?_⟩
  intro ce h
  rw [h2] at h
  simp at h

set_option maxRecDepth 100000 in
/-- Witness for C1 at concrete inputs. -/
theorem round3_checksum_mismatch_claim_witness :
    (∀ kp pkp g, round3 1 cexSp cexRound1 cexC1R2 ≠ Round3Outcome.ok kp pkp g) ∧
    round3 1 cexSp cexRound1
        ([⟨2, 1, 20, cexExpected⟩] ++ ⟨3, 1, 30, cexExpected + 1⟩ :: []) =
      Round3Outcome.err (Error.checksumError ChecksumError.dkgPublicPackageError) := by
  constructor
  · exact round3_checksum_mismatch_claim.1 1 cexSp cexRound1 cexC1R2 (by decide)
  · exact round3_checksum_mismatch_claim.2 1 cexSp cexRound1
      [⟨2, 1, 20, cexExpected⟩] [] ⟨3, 1, 30, cexExpected + 1⟩
      (by decide) (by decide) (by decide) (by decide) (by decide) (by decide)

/-! ## C3: wrong recipient or duplicate sender -/

/-- C3 (corrected): provided the Round1 set passes validation and every
supplied Round2 package carries the expected checksum (so no
`ChecksumError` preempts the later checks), a package whose recipient is
not the caller, or two packages sharing a sender, make `round3` return
`InvalidInput`. -/
theorem round3_wrong_recipient_or_duplicate_sender
    (secret : Secret) (sp : Round2SecretPackage)
    (r1 : List Round1PublicPackage) (r2 : List Round2PublicPackage)
    (hlen : r1.length = sp.maxSigners)
    (hck : ∀ p ∈ r1, p.checksum =
      round1_input_checksum sp.minSigners (r1.map (fun q => q.sender)))
    (hown : (assocLookup (round1FrostMap r1) (Secret.to_identity secret)).isSome = true)
    (hall : ∀ p ∈ r2, p.checksum = round2_input_checksum r1)
    (hoff : (∃ p ∈ r2, p.recipient ≠ Secret.to_identity secret) ∨
      ¬ (r2.map (fun p => p.sender)).Nodup) :
    ∃ k, round3 secret sp r1 r2 = Round3Outcome.err (Error.invalidInput k) := by
  cases hp : processRound2Packages (Secret.to_identity secret)
      (round2_input_checksum r1) r2 [] with
  | ok m' =>
    obtain ⟨hprops, hnodup⟩ := processRound2_ok_all _ _ r2 [] m' hp
    exfalso
    rcases hoff with ⟨p, hpmem, hprec⟩ | hnd
    · exact hprec (hprops p hpmem).2.1
    · exact hnd hnodup
  | error e =>
    rcases processRound2_error_invalid _ _ r2 [] e hall hp with he | he
    · subst he
      exact ⟨InvalidKind.wrongRecipient,
        round3_reduces_to_process_error secret sp r1 r2 hlen hck hown _ hp⟩
    · subst he
      exact ⟨InvalidKind.duplicateSender,
        round3_reduces_to_process_error secret sp r1 r2 hlen hck hown _ hp⟩

set_option maxRecDepth 100000 in
/-- C3 counterexample: with a checksum-mismatched package ahead of the
wrong-recipient one, `round3` returns `ChecksumError`, not `InvalidInput`,
although a checksum-correct wrong-recipient package is present. -/
theorem round3_wrong_recipient_claim_counterexample :
    (∃ p ∈ cexC3R2, p.checksum = round2_input_checksum cexRound1 ∧
      p.recipient ≠ Secret.to_identity 1) ∧
    round3 1 cexSp cexRound1 cexC3R2 =
      Round3Outcome.err (Error.checksumError ChecksumError.dkgPublicPackageError) ∧
    (∀ k, round3 1 cexSp cexRound1 cexC3R2 ≠
      Round3Outcome.err (Error.invalidInput k)) := by
  have h2 : round3 1 cexSp cexRound1 cexC3R2 =
      Round3Outcome.err (Error.checksumError ChecksumError.dkgPublicPackageError) := by
    decide
  refine ⟨by decide, h2, ?_⟩
  intro k h
  rw [h2] at h
  simp at h

set_option maxRecDepth 100000 in
/-- Witness for C3 at concrete inputs: a sole wrong-recipient defect and a
sole duplicate-sender defect each produce `InvalidInput`. -/
theorem round3_wrong_recipient_or_duplicate_sender_witness :
    (∃ k, round3 1 cexSp cexRound1 cexC3WrongRec =
      Round3Outcome.err (Error.invalidInput k)) ∧
    (∃ k, round3 1 cexSp cexRound1 cexC3Dup =
      Round3Outcome.err (Error.invalidInput k)) := by
  constructor
  · exact round3_wrong_recipient_or_duplicate_sender 1 cexSp cexRound1 cexC3WrongRec
      (by decide) (by decide) (by decide) (by decide)
      (Or.inl (by decide))
  · exact round3_wrong_recipient_or_duplicate_sender 1 cexSp cexRound1 cexC3Dup
      (by decide) (by decide) (by decide) (by decide)
      (Or.inr (by decide))

/-! ## C2: failure reporting and the panic sites -/

theorem gskShards_none_iff (secret : Secret) :
    ∀ (l : List Round1PublicPackage),
      gskShards secret l = none ↔ ∃ p ∈ l, group_secret_key_shard p secret = none
  | [] => by simp [gskShards]
  | p :: rest => by
    rw [gskShards]
    cases hg : group_secret_key_shard p secret with
    | none =>
      simp only [List.mem_cons]
      constructor
      · intro _
        exact ⟨p, Or.inl rfl, hg⟩
      · intro _
        trivial
    | some x =>
      cases hr : gskShards secret rest with
      | none =>
        obtain ⟨q, hq, hqn⟩ := (gskShards_none_iff secret rest).1 hr
        simp only [List.mem_cons]
        constructor
        · intro _
          exact ⟨q, Or.inr hq, hqn⟩
        · intro _
          trivial
      | some xs =>
        simp only [List.mem_cons]
        constructor
        · intro hcontra
          cases hcontra
        · rintro ⟨q, hq | hq, hqn⟩
          · subst hq
            rw [hqn] at hg
            cases hg
          · exact absurd ((gskShards_none_iff secret rest).2 ⟨q, hq, hqn⟩)
              (by rw [hr]; simp)

/-- C2 (corrected): `round3` reports failures as returned `Error` values
and never pairs an error with key material, except that three conditions
abort instead of returning an error; in particular a failed
group-secret-key-shard decryption aborts, and it is the only source of the
decryption abort: that abort occurs exactly when some supplied Round1
package has no shard ciphertext the caller's secret can decrypt. -/
theorem round3_failure_modes (secret : Secret) (sp : Round2SecretPackage)
    (r1 : List Round1PublicPackage) (r2 : List Round2PublicPackage) :
    (round3 secret sp r1 r2 = Round3Outcome.panicked PanicReason.gskShardDecryptionFailed →
      ∃ p ∈ r1, group_secret_key_shard p secret = none) ∧
    ((∀ p ∈ r1, (group_secret_key_shard p secret).isSome = true) →
      round3 secret sp r1 r2 ≠ Round3Outcome.panicked PanicReason.gskShardDecryptionFailed) ∧
    (∀ e, round3 secret sp r1 r2 = Round3Outcome.err e →
      ∀ kp pkp g, round3 secret sp r1 r2 ≠ Round3Outcome.ok kp pkp g) := by
  have hA : round3 secret sp r1 r2 =
      Round3Outcome.panicked PanicReason.gskShardDecryptionFailed →
      ∃ p ∈ r1, group_secret_key_shard p secret = none := by
    intro h
    unfold round3 at h
    split at h
    · exact absurd h (by simp)
    · split at h
      · exact absurd h (by simp)
      · split at h
        · exact absurd h (by simp)
        · split at h
          · split at h
            · exact absurd h (by simp)
            · split at h
              · rename_i hnone
                exact (gskShards_none_iff secret r1).1 hnone
              · exact absurd h (by simp)
          · exact absurd h (by simp)
  refine ⟨hA, ?_, ?_⟩
  · intro hall h
    obtain ⟨p, hp, hn⟩ := hA h
    have := hall p hp
    rw [hn] at this
    cases this
  · intro e he kp pkp g hok
    rw [he] at hok
    cases hok

set_option maxRecDepth 100000 in
/-- C2 counterexample: a failed shard decryption makes `round3` abort
instead of returning an error value. -/
theorem round3_decryption_failure_panics_counterexample :
    round3 1 cexSp cexRound1Missing cexC2R2 =
      Round3Outcome.panicked PanicReason.gskShardDecryptionFailed ∧
    (∀ e, round3 1 cexSp cexRound1Missing cexC2R2 ≠ Round3Outcome.err e) := by
  have h1 : round3 1 cexSp cexRound1Missing cexC2R2 =
      Round3Outcome.panicked PanicReason.gskShardDecryptionFailed := by decide
  refine ⟨h1, ?_⟩
  intro e h
  rw [h1] at h
  cases h

set_option maxRecDepth 100000 in
/-- Witness for C2 at concrete inputs. -/
theorem round3_failure_modes_witness :
    (∃ p ∈ cexRound1Missing, group_secret_key_shard p 1 = none) ∧
    round3 1 cexSp cexRound1 cexGoodR2 ≠
      Round3Outcome.panicked PanicReason.gskShardDecryptionFailed := by
  constructor
  · exact (round3_failure_modes 1 cexSp cexRound1Missing cexC2R2).1 (by decide)
  · exact (round3_failure_modes 1 cexSp cexRound1 cexGoodR2).2.1 (by decide)

/-! ## C7: any single-byte change to a serialization is rejected -/

theorem getD_append_left {l₁ l₂ : List Nat} {n : Nat} (h : n < l₁.length) (d : Nat) :
    (l₁ ++ l₂).getD n d = l₁.getD n d := by
  simp [List.getD_eq_getElem?_getD, List.getElem?_append_left h]

theorem getD_append_right {l₁ l₂ : List Nat} {n : Nat} (h : l₁.length ≤ n) (d : Nat) :
    (l₁ ++ l₂).getD n d = l₂.getD (n - l₁.length) d := by
  simp [List.getD_eq_getElem?_getD, List.getElem?_append_right h]

theorem getD_set_self {l : List Nat} {i : Nat} {v d : Nat} (h : i < l.length) :
    (l.set i v).getD i d = v := by
  simp [List.getD_eq_getElem?_getD, List.getElem?_set_self h]

theorem set_ne_of_getD {l : List Nat} {i : Nat} {v d : Nat} (h : i < l.length)
    (hne : v ≠ l.getD i d) : l.set i v ≠ l := by
  intro heq
  have h1 : (l.set i v).getD i d = v := getD_set_self h
  rw [heq] at h1
  exact hne h1.symm

theorem replicate_set_ne {n k v : Nat} (hk : k < n) (hv : v ≠ 0) :
    (List.replicate n (0 : Nat)).set k v ≠ List.replicate n 0 := by
  refine set_ne_of_getD (d := 0) (by simpa using hk) ?_
  simpa [List.getD_eq_getElem?_getD, List.getElem?_replicate, hk] using hv

theorem padToSig_twelve {l : List Nat} (h : l.length = 12) :
    padToSig l = l ++ List.replicate 52 0 := by
  unfold padToSig SIGNATURE_BYTE_SIZE
  rw [List.take_append_eq_append_take, List.take_of_length_le (by omega), h,
    List.take_replicate]
  norm_num

theorem signatureCore_auth (signer idt : Identity) (rc : SigningCommitments)
    (cs : Checksum) :
    signatureCore signer (authenticated_data idt rc cs) =
      signer :: idt :: rc.hidingCm :: rc.bindingCm :: Checksum.to_le_bytes cs := by
  have hassoc : authenticated_data idt rc cs =
      Identity.serialize idt ++ (NonceCommitment.serialize rc.hidingCm ++
        (NonceCommitment.serialize rc.bindingCm ++ Checksum.to_le_bytes cs)) := by
    simp [authenticated_data, List.append_assoc]
  have hd129 : (authenticated_data idt rc cs).drop 129 =
      NonceCommitment.serialize rc.hidingCm ++
        (NonceCommitment.serialize rc.bindingCm ++ Checksum.to_le_bytes cs) := by
    rw [hassoc, List.drop_left' (by simp [Identity.serialize])]
  have hd161 : (authenticated_data idt rc cs).drop 161 =
      NonceCommitment.serialize rc.bindingCm ++ Checksum.to_le_bytes cs := by
    rw [show (161 : Nat) = 129 + 32 from rfl, ← List.drop_drop, hd129,
      List.drop_left' (by simp [NonceCommitment.serialize])]
  have hd193 : (authenticated_data idt rc cs).drop 193 = Checksum.to_le_bytes cs := by
    rw [show (193 : Nat) = 161 + 32 from rfl, ← List.drop_drop, hd161,
      List.drop_left' (by simp [NonceCommitment.serialize])]
  unfold signatureCore
  rw [hd129, hd161, hd193, hassoc,
    List.take_of_length_le (by simp [Checksum.to_le_bytes])]
  simp [Identity.serialize, NonceCommitment.serialize]

theorem mkSignature_auth_inj {s₁ s₂ i₁ i₂ : Identity}
    {rc₁ rc₂ : SigningCommitments} {cs₁ cs₂ : Checksum}
    (h : mkSignature s₁ (authenticated_data i₁ rc₁ cs₁) =
      mkSignature s₂ (authenticated_data i₂ rc₂ cs₂)) :
    s₁ = s₂ ∧ i₁ = i₂ ∧ rc₁ = rc₂ ∧
      Checksum.to_le_bytes cs₁ = Checksum.to_le_bytes cs₂ := by
  have hv := congrArg Subtype.val h
  simp only [mkSignature] at hv
  rw [signatureCore_auth, signatureCore_auth] at hv
  rw [padToSig_twelve (by simp [Checksum.to_le_bytes]),
    padToSig_twelve (by simp [Checksum.to_le_bytes])] at hv
  have hcore := List.append_cancel_right hv
  simp only [List.cons.injEq] at hcore
  obtain ⟨hs, hi, hh, hb, hle⟩ := hcore
  refine ⟨hs, hi, ?_, hle⟩
  cases rc₁
  cases rc₂
  simp_all

theorem verify_data_error_of_ne {idt : Identity} {data : List Byte} {sig : Signature}
    (h : sig ≠ mkSignature idt data) :
    Identity.verify_data idt data sig = Except.error SignatureError.invalidSignature := by
  unfold Identity.verify_data
  rw [if_neg h]

theorem deserialize_error_of_rawParse_error {bytes : List Byte}
    {e : SigningCommitment.DeserializeError}
    (h : SigningCommitment.rawParse bytes = Except.error e) :
    SigningCommitment.deserialize_from bytes = Except.error e := by
  simp [SigningCommitment.deserialize_from, h]

theorem deserialize_signatureError_of_parse {bytes : List Byte} {sig : Signature}
    {idt : Identity} {rc : SigningCommitments} {cs : Checksum}
    (hp : SigningCommitment.rawParse bytes = Except.ok (sig, idt, rc, cs))
    (hne : sig ≠ mkSignature idt (authenticated_data idt rc cs)) :
    SigningCommitment.deserialize_from bytes =
      Except.error SigningCommitment.DeserializeError.signatureError := by
  have herr : SigningCommitment.from_raw_parts idt rc cs sig =
      Except.error SignatureError.invalidSignature :=
    from_raw_parts_error_of_not_verifies (by
      show Identity.verify_data idt (authenticated_data idt rc cs) sig ≠ Except.ok ()
      rw [verify_data_error_of_ne hne]
      intro hcc
      cases hcc)
  simp [SigningCommitment.deserialize_from, hp, herr]

theorem to_le_from_le_explicit (b0 b1 b2 b3 b4 b5 b6 b7 : Nat)
    (h0 : b0 < 256) (h1 : b1 < 256) (h2 : b2 < 256) (h3 : b3 < 256)
    (h4 : b4 < 256) (h5 : b5 < 256) (h6 : b6 < 256) (h7 : b7 < 256) :
    Checksum.to_le_bytes (Checksum.from_le_bytes [b0, b1, b2, b3, b4, b5, b6, b7]) =
      [b0, b1, b2, b3, b4, b5, b6, b7] := by
  simp only [Checksum.from_le_bytes, Checksum.to_le_bytes, List.getD_cons_zero,
    List.getD_cons_succ, List.cons.injEq, and_true]
  omega

theorem to_le_set_roundtrip {n j v : Nat} (hj : j < 8) (hv : v < 256) :
    Checksum.to_le_bytes (Checksum.from_le_bytes ((Checksum.to_le_bytes n).set j v)) =
      (Checksum.to_le_bytes n).set j v := by
  interval_cases j <;>
    · simp only [Checksum.to_le_bytes, List.set_cons_zero, List.set_cons_succ]
      exact to_le_from_le_explicit _ _ _ _ _ _ _ _ (by omega) (by omega) (by omega)
        (by omega) (by omega) (by omega) (by omega) (by omega)

theorem deserialize_set_error (c : SigningCommitment)
    (hsig : c.signature = mkSignature c.identity
      (authenticated_data c.identity c.raw_commitments c.checksum))
    (hcs : c.checksum < CHECKSUM_MOD)
    (i b' : Nat) (hi : i < SIGNING_COMMITMENT_LEN)
    (hb : b' ≠ (SigningCommitment.serialize c).getD i 0)
    (hlt : b' < 256) :
    ∃ e, SigningCommitment.deserialize_from
        ((SigningCommitment.serialize c).set i b') = Except.error e := by
  have hi' : i < 265 := by
    simpa [SIGNING_COMMITMENT_LEN, AUTHENTICATED_DATA_LEN, IDENTITY_LEN,
      NONCE_COMMITMENT_LEN, CHECKSUM_LEN, SIGNATURE_BYTE_SIZE] using hi
  have hS : (Signature.to_bytes c.signature).length = 64 := c.signature.2
  have hI : (Identity.serialize c.identity).length = 129 := by simp [Identity.serialize]
  have hH : (NonceCommitment.serialize c.raw_commitments.hidingCm).length = 32 := by
    simp [NonceCommitment.serialize]
  have hB : (NonceCommitment.serialize c.raw_commitments.bindingCm).length = 32 := by
    simp [NonceCommitment.serialize]
  have hCs : (Checksum.to_le_bytes c.checksum).length = 8 := by
    simp [Checksum.to_le_bytes]
  have hser := serialize_eq_chunks c
  rcases Nat.lt_or_ge i 64 with hA | h64
  · -- modified byte inside the signature: structural parse succeeds, the
    -- stored signature no longer matches the recomputed one
    have hset : (SigningCommitment.serialize c).set i b' =
        (Signature.to_bytes c.signature).set i b' ++
          (Identity.serialize c.identity ++
            (NonceCommitment.serialize c.raw_commitments.hidingCm ++
              (NonceCommitment.serialize c.raw_commitments.bindingCm ++
                Checksum.to_le_bytes c.checksum))) := by
      rw [hser, List.set_append_left i b' (by rw [hS]; exact hA)]
    have hp : SigningCommitment.rawParse ((SigningCommitment.serialize c).set i b') =
        Except.ok (SigningCommitment.bytesToSignature
            ((Signature.to_bytes c.signature).set i b'),
          c.identity, c.raw_commitments, c.checksum) := by
      rw [hset, rawParse_chunks _ _ _ _ _ (by rw [List.length_set]; exact hS) hI hH hB hCs,
        identity_chunk_roundtrip, nonce_chunk_roundtrip,
        nonce_chunk_roundtrip, from_le_to_le hcs]
    have hbS : b' ≠ (Signature.to_bytes c.signature).getD i 0 := by
      rw [hser, getD_append_left (by rw [hS]; exact hA)] at hb
      exact hb
    have hne : SigningCommitment.bytesToSignature
        ((Signature.to_bytes c.signature).set i b') ≠
        mkSignature c.identity
          (authenticated_data c.identity c.raw_commitments c.checksum) := by
      rw [← hsig]
      intro heq
      have hv := congrArg Subtype.val heq
      simp only [SigningCommitment.bytesToSignature] at hv
      rw [padToSig_of_length (by rw [List.length_set]; exact c.signature.2)] at hv
      exact set_ne_of_getD (by rw [hS]; exact hA) hbS hv
    exact ⟨_, deserialize_signatureError_of_parse hp hne⟩
  · rcases Nat.lt_or_ge i 193 with hB2 | h193
    · -- modified byte inside the identity chunk
      obtain ⟨j, rfl⟩ : ∃ j, i = 64 + j := ⟨i - 64, by omega⟩
      have hj : j < 129 := by omega
      have hset : (SigningCommitment.serialize c).set (64 + j) b' =
          Signature.to_bytes c.signature ++
            ((Identity.serialize c.identity).set j b' ++
              (NonceCommitment.serialize c.raw_commitments.hidingCm ++
                (NonceCommitment.serialize c.raw_commitments.bindingCm ++
                  Checksum.to_le_bytes c.checksum))) := by
        rw [hser, List.set_append_right (64 + j) b' (by rw [hS]; omega), hS,
          Nat.add_sub_cancel_left,
          List.set_append_left j b' (by rw [hI]; exact hj)]
      have hbI : b' ≠ (Identity.serialize c.identity).getD j 0 := by
        rw [hser, getD_append_right (by rw [hS]; omega), hS, Nat.add_sub_cancel_left,
          getD_append_left (by rw [hI]; exact hj)] at hb
        exact hb
      cases j with
      | zero =>
        have hIset : (Identity.serialize c.identity).set 0 b' =
            Identity.serialize b' := by
          simp [Identity.serialize]
        have hp : SigningCommitment.rawParse
            ((SigningCommitment.serialize c).set (64 + 0) b') =
            Except.ok (c.signature, b', c.raw_commitments, c.checksum) := by
          rw [hset, hIset,
            rawParse_chunks _ _ _ _ _ hS (by simp [Identity.serialize]) hH hB hCs,
            identity_chunk_roundtrip, nonce_chunk_roundtrip,
            nonce_chunk_roundtrip, from_le_to_le hcs,
            bytesToSignature_to_bytes]
        have hidne : b' ≠ c.identity := by
          have hrfl : (Identity.serialize c.identity).getD 0 0 = c.identity := rfl
          rwa [hrfl] at hbI
        have hne : c.signature ≠
            mkSignature b' (authenticated_data b' c.raw_commitments c.checksum) := by
          rw [hsig]
          intro heq
          exact hidne (mkSignature_auth_inj heq).1.symm
        exact ⟨_, deserialize_signatureError_of_parse hp hne⟩
      | succ k =>
        have hk : k < 128 := by omega
        have hIset : (Identity.serialize c.identity).set (k + 1) b' =
            c.identity :: (List.replicate 128 0).set k b' := by
          simp [Identity.serialize]
        have hzero : (Identity.serialize c.identity).getD (k + 1) 0 = 0 := by
          show (c.identity :: List.replicate 128 0).getD (k + 1) 0 = 0
          rw [List.getD_cons_succ]
          simp only [List.getD_eq_getElem?_getD, List.getElem?_replicate]
          rw [if_pos hk]
          rfl
        have hb0 : b' ≠ 0 := by
          rw [hzero] at hbI
          exact hbI
        have hchunk : Identity.deserializeChunk
            (c.identity :: (List.replicate 128 0).set k b') = none := by
          unfold Identity.deserializeChunk
          rw [if_neg]
          rintro ⟨-, h2⟩
          exact replicate_set_ne hk hb0 (by rwa [List.tail_cons] at h2)
        have hp : SigningCommitment.rawParse
            ((SigningCommitment.serialize c).set (64 + (k + 1)) b') =
            Except.error SigningCommitment.DeserializeError.invalidEncoding := by
          rw [hset, hIset,
            rawParse_chunks _ _ _ _ _ hS (by simp) hH hB hCs, hchunk]
        exact ⟨_, deserialize_error_of_rawParse_error hp⟩
    · rcases Nat.lt_or_ge i 225 with hC2 | h225
      · -- modified byte inside the hiding-commitment chunk
        obtain ⟨j, rfl⟩ : ∃ j, i = 193 + j := ⟨i - 193, by omega⟩
        have hj : j < 32 := by omega
        have h1 : 193 + j - 64 = 129 + j := by omega
        have hset : (SigningCommitment.serialize c).set (193 + j) b' =
            Signature.to_bytes c.signature ++
              (Identity.serialize c.identity ++
                ((NonceCommitment.serialize c.raw_commitments.hidingCm).set j b' ++
                  (NonceCommitment.serialize c.raw_commitments.bindingCm ++
                    Checksum.to_le_bytes c.checksum))) := by
          rw [hser, List.set_append_right (193 + j) b' (by rw [hS]; omega), hS, h1,
            List.set_append_right (129 + j) b' (by rw [hI]; omega), hI,
            Nat.add_sub_cancel_left, List.set_append_left j b' (by rw [hH]; exact hj)]
        have hbH : b' ≠ (NonceCommitment.serialize c.raw_commitments.hidingCm).getD j 0 := by
          rw [hser, getD_append_right (by rw [hS]; omega), hS, h1,
            getD_append_right (by rw [hI]; omega), hI, Nat.add_sub_cancel_left,
            getD_append_left (by rw [hH]; exact hj)] at hb
          exact hb
        cases j with
        | zero =>
          have hHset : (NonceCommitment.serialize c.raw_commitments.hidingCm).set 0 b' =
              NonceCommitment.serialize b' := by
            simp [NonceCommitment.serialize]
          have hp : SigningCommitment.rawParse
              ((SigningCommitment.serialize c).set (193 + 0) b') =
              Except.ok (c.signature, c.identity,
                SigningCommitments.mk b' c.raw_commitments.bindingCm, c.checksum) := by
            rw [hset, hHset,
              rawParse_chunks _ _ _ _ _ hS hI (by simp [NonceCommitment.serialize]) hB hCs,
              identity_chunk_roundtrip, nonce_chunk_roundtrip,
              nonce_chunk_roundtrip, from_le_to_le hcs,
              bytesToSignature_to_bytes]
          have hhne : b' ≠ c.raw_commitments.hidingCm := by
            have hrfl : (NonceCommitment.serialize c.raw_commitments.hidingCm).getD 0 0 =
                c.raw_commitments.hidingCm := rfl
            rwa [hrfl] at hbH
          have hne : c.signature ≠ mkSignature c.identity
              (authenticated_data c.identity
                (SigningCommitments.mk b' c.raw_commitments.bindingCm) c.checksum) := by
            rw [hsig]
            intro heq
            have h3 := (mkSignature_auth_inj heq).2.2.1
            exact hhne (congrArg SigningCommitments.hidingCm h3).symm
          exact ⟨_, deserialize_signatureError_of_parse hp hne⟩
        | succ k =>
          have hk : k < 31 := by omega
          have hHset : (NonceCommitment.serialize c.raw_commitments.hidingCm).set (k + 1) b' =
              c.raw_commitments.hidingCm :: (List.replicate 31 0).set k b' := by
            simp [NonceCommitment.serialize]
          have hzero : (NonceCommitment.serialize c.raw_commitments.hidingCm).getD (k + 1) 0 = 0 := by
            show (c.raw_commitments.hidingCm :: List.replicate 31 0).getD (k + 1) 0 = 0
            rw [List.getD_cons_succ]
            simp only [List.getD_eq_getElem?_getD, List.getElem?_replicate]
            rw [if_pos hk]
            rfl
          have hb0 : b' ≠ 0 := by
            rw [hzero] at hbH
            exact hbH
          have hchunk : NonceCommitment.deserializeChunk
              (c.raw_commitments.hidingCm :: (List.replicate 31 0).set k b') = none := by
            unfold NonceCommitment.deserializeChunk
            rw [if_neg]
            rintro ⟨-, h2⟩
            exact replicate_set_ne hk hb0 (by rwa [List.tail_cons] at h2)
          have hp : SigningCommitment.rawParse
              ((SigningCommitment.serialize c).set (193 + (k + 1)) b') =
              Except.error SigningCommitment.DeserializeError.invalidEncoding := by
            rw [hset, hHset,
              rawParse_chunks _ _ _ _ _ hS hI (by simp) hB hCs,
              identity_chunk_roundtrip, hchunk]
          exact ⟨_, deserialize_error_of_rawParse_error hp⟩
      · rcases Nat.lt_or_ge i 257 with hD2 | h257
        · -- modified byte inside the binding-commitment chunk
          obtain ⟨j, rfl⟩ : ∃ j, i = 225 + j := ⟨i - 225, by omega⟩
          have hj : j < 32 := by omega
          have h1 : 225 + j - 64 = 161 + j := by omega
          have h2 : 161 + j - 129 = 32 + j := by omega
          have hset : (SigningCommitment.serialize c).set (225 + j) b' =
              Signature.to_bytes c.signature ++
                (Identity.serialize c.identity ++
                  (NonceCommitment.serialize c.raw_commitments.hidingCm ++
                    ((NonceCommitment.serialize c.raw_commitments.bindingCm).set j b' ++
                      Checksum.to_le_bytes c.checksum))) := by
            rw [hser, List.set_append_right (225 + j) b' (by rw [hS]; omega), hS, h1,
              List.set_append_right (161 + j) b' (by rw [hI]; omega), hI, h2,
              List.set_append_right (32 + j) b' (by rw [hH]; omega), hH,
              Nat.add_sub_cancel_left, List.set_append_left j b' (by rw [hB]; exact hj)]
          have hbB : b' ≠ (NonceCommitment.serialize c.raw_commitments.bindingCm).getD j 0 := by
            rw [hser, getD_append_right (by rw [hS]; omega), hS, h1,
              getD_append_right (by rw [hI]; omega), hI, h2,
              getD_append_right (by rw [hH]; omega), hH, Nat.add_sub_cancel_left,
              getD_append_left (by rw [hB]; exact hj)] at hb
            exact hb
          cases j with
          | zero =>
            have hBset : (NonceCommitment.serialize c.raw_commitments.bindingCm).set 0 b' =
                NonceCommitment.serialize b' := by
              simp [NonceCommitment.serialize]
            have hp : SigningCommitment.rawParse
                ((SigningCommitment.serialize c).set (225 + 0) b') =
                Except.ok (c.signature, c.identity,
                  SigningCommitments.mk c.raw_commitments.hidingCm b', c.checksum) := by
              rw [hset, hBset,
                rawParse_chunks _ _ _ _ _ hS hI hH (by simp [NonceCommitment.serialize]) hCs,
                identity_chunk_roundtrip, nonce_chunk_roundtrip,
                nonce_chunk_roundtrip, from_le_to_le hcs,
                bytesToSignature_to_bytes]
            have hbne : b' ≠ c.raw_commitments.bindingCm := by
              have hrfl : (NonceCommitment.serialize c.raw_commitments.bindingCm).getD 0 0 =
                  c.raw_commitments.bindingCm := rfl
              rwa [hrfl] at hbB
            have hne : c.signature ≠ mkSignature c.identity
                (authenticated_data c.identity
                  (SigningCommitments.mk c.raw_commitments.hidingCm b') c.checksum) := by
              rw [hsig]
              intro heq
              have h3 := (mkSignature_auth_inj heq).2.2.1
              exact hbne (congrArg SigningCommitments.bindingCm h3).symm
            exact ⟨_, deserialize_signatureError_of_parse hp hne⟩
          | succ k =>
            have hk : k < 31 := by omega
            have hBset : (NonceCommitment.serialize c.raw_commitments.bindingCm).set (k + 1) b' =
                c.raw_commitments.bindingCm :: (List.replicate 31 0).set k b' := by
              simp [NonceCommitment.serialize]
            have hzero : (NonceCommitment.serialize c.raw_commitments.bindingCm).getD (k + 1) 0 = 0 := by
              show (c.raw_commitments.bindingCm :: List.replicate 31 0).getD (k + 1) 0 = 0
              rw [List.getD_cons_succ]
              simp only [List.getD_eq_getElem?_getD, List.getElem?_replicate]
              rw [if_pos hk]
              rfl
            have hb0 : b' ≠ 0 := by
              rw [hzero] at hbB
              exact hbB
            have hchunk : NonceCommitment.deserializeChunk
                (c.raw_commitments.bindingCm :: (List.replicate 31 0).set k b') = none := by
              unfold NonceCommitment.deserializeChunk
              rw [if_neg]
              rintro ⟨-, h2⟩
              exact replicate_set_ne hk hb0 (by rwa [List.tail_cons] at h2)
            have hp : SigningCommitment.rawParse
                ((SigningCommitment.serialize c).set (225 + (k + 1)) b') =
                Except.error SigningCommitment.DeserializeError.invalidEncoding := by
              rw [hset, hBset,
                rawParse_chunks _ _ _ _ _ hS hI hH (by simp) hCs,
                identity_chunk_roundtrip, nonce_chunk_roundtrip,
                hchunk]
            exact ⟨_, deserialize_error_of_rawParse_error hp⟩
        · -- modified byte inside the checksum chunk
          obtain ⟨j, rfl⟩ : ∃ j, i = 257 + j := ⟨i - 257, by omega⟩
          have hj : j < 8 := by omega
          have h1 : 257 + j - 64 = 193 + j := by omega
          have h2 : 193 + j - 129 = 64 + j := by omega
          have h3 : 64 + j - 32 = 32 + j := by omega
          have hset : (SigningCommitment.serialize c).set (257 + j) b' =
              Signature.to_bytes c.signature ++
                (Identity.serialize c.identity ++
                  (NonceCommitment.serialize c.raw_commitments.hidingCm ++
                    (NonceCommitment.serialize c.raw_commitments.bindingCm ++
                      (Checksum.to_le_bytes c.checksum).set j b'))) := by
            rw [hser, List.set_append_right (257 + j) b' (by rw [hS]; omega), hS, h1,
              List.set_append_right (193 + j) b' (by rw [hI]; omega), hI, h2,
              List.set_append_right (64 + j) b' (by rw [hH]; omega), hH, h3,
              List.set_append_right (32 + j) b' (by rw [hB]; omega), hB,
              Nat.add_sub_cancel_left]
          have hbCs : b' ≠ (Checksum.to_le_bytes c.checksum).getD j 0 := by
            rw [hser, getD_append_right (by rw [hS]; omega), hS, h1,
              getD_append_right (by rw [hI]; omega), hI, h2,
              getD_append_right (by rw [hH]; omega), hH, h3,
              getD_append_right (by rw [hB]; omega), hB, Nat.add_sub_cancel_left] at hb
            exact hb
          have hp : SigningCommitment.rawParse
              ((SigningCommitment.serialize c).set (257 + j) b') =
              Except.ok (c.signature, c.identity, c.raw_commitments,
                Checksum.from_le_bytes ((Checksum.to_le_bytes c.checksum).set j b')) := by
            rw [hset,
              rawParse_chunks _ _ _ _ _ hS hI hH hB (by rw [List.length_set]; exact hCs),
              identity_chunk_roundtrip, nonce_chunk_roundtrip,
              nonce_chunk_roundtrip, bytesToSignature_to_bytes]
          have hne : c.signature ≠ mkSignature c.identity
              (authenticated_data c.identity c.raw_commitments
                (Checksum.from_le_bytes ((Checksum.to_le_bytes c.checksum).set j b'))) := by
            rw [hsig]
            intro heq
            have hle := (mkSignature_auth_inj heq).2.2.2
            rw [to_le_set_roundtrip hj hlt] at hle
            exact set_ne_of_getD (by rw [hCs]; exact hj) hbCs hle.symm
          exact ⟨_, deserialize_signatureError_of_parse hp hne⟩

/-- C7: for every SigningCommitment constructed by `from_secrets` and every
byte position of its serialized form, replacing the byte at that position
by any other byte value yields a byte string on which `deserialize_from`
returns an error: a change in the signature, identity head, commitment
head or checksum bytes breaks the authenticity check, and a change in a
padding byte breaks the field encoding. -/
theorem serialize_byte_change_rejected (s : Secret) (sh : SigningShare)
    (tx : List Byte) (ps : List Identity) (i b' : Nat)
    (hi : i < SIGNING_COMMITMENT_LEN)
    (hb : b' ≠ (SigningCommitment.from_secrets s sh tx ps).serialize.getD i 0)
    (hlt : b' < 256) :
    ∃ e, SigningCommitment.deserialize_from
        ((SigningCommitment.from_secrets s sh tx ps).serialize.set i b') =
      Except.error e :=
  deserialize_set_error _ rfl (hashBytes_lt _) i b' hi hb hlt

set_option maxRecDepth 100000 in
/-- Witness for C7 at a concrete input and byte position. -/
theorem serialize_byte_change_rejected_witness :
    ∃ e, SigningCommitment.deserialize_from
        ((SigningCommitment.from_secrets 5 7 [9, 8] [1, 2]).serialize.set 100 3) =
      Except.error e :=
  serialize_byte_change_rejected 5 7 [9, 8] [1, 2] 100 3 (by decide) (by decide)
    (by decide)

end IronfishFrost
